import Mathlib

/-!
Shallow embedding of the `Voting` contract (contracts/Voting.sol) of the
Shardeum-Voting-DApp repository, together with proofs about its poll
lifecycle and vote-tallying behaviour.

Addresses are opaque identities compared only for equality; we model them
as strings.  Solidity mappings with default values are modelled as total
functions (the `polls` mapping yields `emptyPoll` for unassigned ids, the
per-poll voter mappings default to `false` resp. `0`).  A reverting call
is modelled as `Except.error` carrying the revert reason; the caller
(`msg.sender`) and the block timestamp (`block.timestamp`) are explicit
parameters.
-/

namespace Voting

abbrev Address := String

/-- The `Poll` struct of Voting.sol.  The `hasVoted` mapping
(address to bool, default false) is modelled as the finite set of
addresses mapped to true; `voterChoice` (address to uint256, default 0)
as a total function. -/
structure Poll where
  id : Nat
  question : String
  options : List String
  voteCounts : List Nat
  creator : Address
  endTime : Nat
  active : Bool
  hasVoted : Finset Address
  voterChoice : Address → Nat

/-- Default value of the `polls` mapping for an id that was never assigned:
every field is the Solidity zero value. -/
def emptyPoll : Poll :=
  { id := 0, question := "", options := [], voteCounts := [],
    creator := "", endTime := 0, active := false,
    hasVoted := ∅, voterChoice := fun _ => 0 }

/-- Contract storage: `pollCount` and the `polls` mapping. -/
structure VState where
  pollCount : Nat
  polls : Nat → Poll

/-- Freshly deployed contract: `pollCount = 0`, all polls empty. -/
def initState : VState := { pollCount := 0, polls := fun _ => emptyPoll }

/-- Revert reasons of Voting.sol, one constructor per distinct
`require` message. -/
inductive VErr where
  | questionEmpty
  | needTwoOptions
  | maxTenOptions
  | durationZero
  | durationTooLong
  | optionEmpty
  | pollMissing
  | pollInactive
  | pollEnded
  | alreadyVoted
  | invalidOption
  | notCreator
  | alreadyEnded
  | voterHasNoVote
  deriving DecidableEq, Repr

/-- The `pollExists` modifier: `_pollId > 0 && _pollId <= pollCount`. -/
def pollExists (s : VState) (pollId : Nat) : Prop :=
  0 < pollId ∧ pollId ≤ s.pollCount

instance (s : VState) (pollId : Nat) : Decidable (pollExists s pollId) :=
  inferInstanceAs (Decidable (0 < pollId ∧ pollId ≤ s.pollCount))

/-- Write poll `i` back into storage. -/
def updatePoll (s : VState) (i : Nat) (p : Poll) : VState :=
  { s with polls := fun j => if j = i then p else s.polls j }

/-- `createPoll` of Voting.sol.  The option-emptiness check happens inside
the storage-filling loop in the source, but a failed `require` reverts the
whole call, so checking all options before constructing the poll is the
same function on states. -/
def createPoll (s : VState) (sender : Address) (now : Nat)
    (question : String) (options : List String) (durationInMinutes : Nat) :
    Except VErr (VState × Nat) :=
  if question.length = 0 then .error .questionEmpty
  else if options.length < 2 then .error .needTwoOptions
  else if options.length > 10 then .error .maxTenOptions
  else if durationInMinutes = 0 then .error .durationZero
  else if durationInMinutes > 10080 then .error .durationTooLong
  else if options.any (fun o => o.length == 0) then .error .optionEmpty
  else
    let newId := s.pollCount + 1
    let p : Poll :=
      { id := newId, question := question, options := options,
        voteCounts := List.replicate options.length 0,
        creator := sender, endTime := now + durationInMinutes * 60,
        active := true, hasVoted := ∅, voterChoice := fun _ => 0 }
    .ok ({ pollCount := newId,
           polls := fun j => if j = newId then p else s.polls j }, newId)

/-- The successful branch of `vote`: record the voter and bump the chosen
count (`voteCounts[_optionIndex]++`). -/
def applyVote (p : Poll) (sender : Address) (optionIndex : Nat) : Poll :=
  { p with
    hasVoted := insert sender p.hasVoted,
    voterChoice := fun a => if a = sender then optionIndex else p.voterChoice a,
    voteCounts := p.voteCounts.set optionIndex (p.voteCounts.getD optionIndex 0 + 1) }

/-- `vote` of Voting.sol: modifiers `pollExists`, `pollActive`
(stored flag, then timestamp), `hasNotVoted`, then the in-body
`require(_optionIndex < poll.options.length)`. -/
def vote (s : VState) (sender : Address) (now : Nat)
    (pollId optionIndex : Nat) : Except VErr VState :=
  if pollExists s pollId then
    let p := s.polls pollId
    if p.active then
      if now < p.endTime then
        if sender ∉ p.hasVoted then
          if optionIndex < p.options.length then
            .ok (updatePoll s pollId (applyVote p sender optionIndex))
          else .error .invalidOption
        else .error .alreadyVoted
      else .error .pollEnded
    else .error .pollInactive
  else .error .pollMissing

/-- `endPoll` of Voting.sol: creator check, then stored-active check; no
timestamp is read. -/
def endPoll (s : VState) (sender : Address) (pollId : Nat) :
    Except VErr VState :=
  if pollExists s pollId then
    let p := s.polls pollId
    if sender = p.creator then
      if p.active then
        .ok (updatePoll s pollId { p with active := false })
      else .error .alreadyEnded
    else .error .notCreator
  else .error .pollMissing

/-- The running-total loop of `getPoll`. -/
def sumLoop (counts : List Nat) : Nat :=
  counts.foldl (fun total c => total + c) 0

/-- The tuple returned by `getPoll`. -/
structure PollView where
  id : Nat
  question : String
  options : List String
  voteCounts : List Nat
  creator : Address
  endTime : Nat
  active : Bool
  totalVotes : Nat
  deriving DecidableEq, Repr

/-- `getPoll` of Voting.sol: stored fields plus the derived activity flag
`poll.active && block.timestamp < poll.endTime` and the summed total. -/
def getPoll (s : VState) (now : Nat) (pollId : Nat) : Except VErr PollView :=
  if pollExists s pollId then
    let p := s.polls pollId
    .ok { id := p.id, question := p.question, options := p.options,
          voteCounts := p.voteCounts, creator := p.creator,
          endTime := p.endTime,
          active := p.active && decide (now < p.endTime),
          totalVotes := sumLoop p.voteCounts }
  else .error .pollMissing

/-- `hasVoted` view function. -/
def hasVoted (s : VState) (pollId : Nat) (voter : Address) :
    Except VErr Bool :=
  if pollExists s pollId then
    .ok (decide (voter ∈ (s.polls pollId).hasVoted))
  else .error .pollMissing

/-- `getVoterChoice` of Voting.sol: requires the address to have voted. -/
def getVoterChoice (s : VState) (pollId : Nat) (voter : Address) :
    Except VErr Nat :=
  if pollExists s pollId then
    if voter ∈ (s.polls pollId).hasVoted then
      .ok ((s.polls pollId).voterChoice voter)
    else .error .voterHasNoVote
  else .error .pollMissing

/-- The collection loop of `getActivePolls`, scanning ids `1..n` upward and
appending each id whose poll is stored-active and not yet past `endTime`.
The source's first (counting) pass only sizes the output array and has no
observable effect. -/
def activeScan (s : VState) (now : Nat) : Nat → List Nat
  | 0 => []
  | n + 1 =>
      activeScan s now n ++
        (if (s.polls (n + 1)).active = true ∧ now < (s.polls (n + 1)).endTime
         then [n + 1] else [])

/-- `getActivePolls` of Voting.sol. -/
def getActivePolls (s : VState) (now : Nat) : List Nat :=
  activeScan s now s.pollCount

/-- The scanning loop of `getWinner`: running leader index and maximum,
replaced only on a strictly greater count. -/
def winnerScan : List Nat → Nat → Nat → Nat → Nat × Nat
  | [], _, winnerIndex, maxVotes => (winnerIndex, maxVotes)
  | c :: rest, i, winnerIndex, maxVotes =>
      if c > maxVotes then winnerScan rest (i + 1) i c
      else winnerScan rest (i + 1) winnerIndex maxVotes

/-- `getWinner` of Voting.sol: the loop starts from `maxVotes = 0`,
`winnerIndex = 0` and returns the leader's index, its option text and the
maximum count. -/
def getWinner (s : VState) (pollId : Nat) :
    Except VErr (Nat × String × Nat) :=
  if pollExists s pollId then
    let p := s.polls pollId
    let r := winnerScan p.voteCounts 0 0 0
    .ok (r.1, p.options.getD r.1 "", r.2)
  else .error .pollMissing

/-- A transaction against the contract: the mutating entry points with
their caller and block timestamp. -/
inductive Op where
  | create (sender : Address) (now : Nat) (question : String)
      (options : List String) (durationInMinutes : Nat)
  | castVote (sender : Address) (now : Nat) (pollId optionIndex : Nat)
  | close (sender : Address) (pollId : Nat)

/-- Applying a transaction: a revert leaves the storage unchanged. -/
def step (s : VState) : Op → VState
  | .create sender now q opts dur =>
      match createPoll s sender now q opts dur with
      | .ok r => r.1
      | .error _ => s
  | .castVote sender now pid idx =>
      match vote s sender now pid idx with
      | .ok s2 => s2
      | .error _ => s
  | .close sender pid =>
      match endPoll s sender pid with
      | .ok s2 => s2
      | .error _ => s

/-- States reachable from deployment by any sequence of transactions. -/
inductive Reachable : VState → Prop where
  | init : Reachable initState
  | next {s : VState} (op : Op) : Reachable s → Reachable (step s op)

/-! ### List helper lemmas -/

lemma getD_zero_cons (c : Nat) (rest : List Nat) : (c :: rest).getD 0 0 = c := rfl

lemma getD_succ_cons (c : Nat) (rest : List Nat) (k : Nat) :
    (c :: rest).getD (k + 1) 0 = rest.getD k 0 := rfl

lemma getD_nil_eq (k : Nat) : ([] : List Nat).getD k 0 = 0 := by
  cases k <;> rfl

lemma getD_set_self (l : List Nat) (k a : Nat) (hk : k < l.length) :
    (l.set k a).getD k 0 = a := by
  induction l generalizing k with
  | nil => simp at hk
  | cons c rest ih =>
    cases k with
    | zero => rfl
    | succ k =>
      have hk2 : k < rest.length := by simpa using hk
      simpa [List.set, getD_succ_cons] using ih k hk2

lemma getD_set_other (l : List Nat) (k j a : Nat) (hj : j ≠ k) :
    (l.set k a).getD j 0 = l.getD j 0 := by
  induction l generalizing k j with
  | nil => simp [List.set]
  | cons c rest ih =>
    cases k with
    | zero =>
      cases j with
      | zero => exact absurd rfl hj
      | succ j => rfl
    | succ k =>
      cases j with
      | zero => rfl
      | succ j =>
        have hj2 : j ≠ k := fun h => hj (by rw [h])
        simpa [List.set, getD_succ_cons] using ih k j hj2

lemma sum_set_getD_add_one (l : List Nat) (k : Nat) (hk : k < l.length) :
    (l.set k (l.getD k 0 + 1)).sum = l.sum + 1 := by
  induction l generalizing k with
  | nil => simp at hk
  | cons c rest ih =>
    cases k with
    | zero => simp [List.set, getD_zero_cons, List.sum_cons]; omega
    | succ k =>
      have hk2 : k < rest.length := by simpa using hk
      have := ih k hk2
      simp only [List.set, getD_succ_cons, List.sum_cons, this]
      omega

lemma foldl_add_shift (l : List Nat) (a : Nat) :
    l.foldl (fun total c => total + c) a = a + l.sum := by
  induction l generalizing a with
  | nil => simp
  | cons c rest ih => simp [List.foldl_cons, List.sum_cons, ih]; omega

lemma sumLoop_eq_sum (l : List Nat) : sumLoop l = l.sum := by
  simpa using foldl_add_shift l 0

/-! ### Characterizations of the mutating operations -/

lemma vote_ok_iff (s : VState) (v : Address) (now : Nat) (pid idx : Nat)
    (s2 : VState) :
    vote s v now pid idx = Except.ok s2 ↔
      pollExists s pid ∧ (s.polls pid).active = true
        ∧ now < (s.polls pid).endTime
        ∧ v ∉ (s.polls pid).hasVoted
        ∧ idx < (s.polls pid).options.length
        ∧ s2 = updatePoll s pid (applyVote (s.polls pid) v idx) := by
  by_cases h1 : pollExists s pid
  · by_cases h2 : (s.polls pid).active = true
    · by_cases h3 : now < (s.polls pid).endTime
      · by_cases h4 : v ∈ (s.polls pid).hasVoted
        · simp [vote, h1, h2, h3, h4]
        · by_cases h5 : idx < (s.polls pid).options.length
          · simp [vote, h1, h2, h3, h4, h5, eq_comm]
          · simp [vote, h1, h2, h3, h4, h5]
      · simp [vote, h1, h2, h3]
    · simp [vote, h1, h2]
  · simp [vote, h1]

lemma endPoll_ok_iff (s : VState) (sender : Address) (pid : Nat)
    (s2 : VState) :
    endPoll s sender pid = Except.ok s2 ↔
      pollExists s pid ∧ sender = (s.polls pid).creator
        ∧ (s.polls pid).active = true
        ∧ s2 = updatePoll s pid { s.polls pid with active := false } := by
  by_cases h1 : pollExists s pid
  · by_cases h2 : sender = (s.polls pid).creator
    · by_cases h3 : (s.polls pid).active = true
      · simp [endPoll, h1, h2, h3, eq_comm]
      · simp [endPoll, h1, h2, h3]
    · simp [endPoll, h1, h2]
  · simp [endPoll, h1]

lemma createPoll_ok_iff (s : VState) (sender : Address) (now : Nat)
    (q : String) (opts : List String) (dur : Nat) (s2 : VState) (newId : Nat) :
    createPoll s sender now q opts dur = Except.ok (s2, newId) ↔
      0 < q.length ∧ 2 ≤ opts.length ∧ opts.length ≤ 10
        ∧ 0 < dur ∧ dur ≤ 10080
        ∧ (∀ o ∈ opts, ¬ o.length = 0)
        ∧ newId = s.pollCount + 1
        ∧ s2 = { pollCount := s.pollCount + 1,
                 polls := fun j =>
                   if j = s.pollCount + 1 then
                     { id := s.pollCount + 1, question := q, options := opts,
                       voteCounts := List.replicate opts.length 0,
                       creator := sender, endTime := now + dur * 60,
                       active := true, hasVoted := ∅,
                       voterChoice := fun _ => 0 }
                   else s.polls j } := by
  by_cases h1 : q.length = 0
  · simp [createPoll, h1]
  · by_cases h2 : opts.length < 2
    · simp [createPoll, h1, h2]
    · by_cases h3 : opts.length > 10
      · simp [createPoll, h1, h2, h3]
      · by_cases h4 : dur = 0
        · simp [createPoll, h1, h2, h3, h4]
        · by_cases h5 : dur > 10080
          · simp [createPoll, h1, h2, h3, h4, h5]
          · by_cases h6 : opts.any (fun o => o.length == 0)
            · simp [createPoll, h1, h2, h3, h4, h5, h6]
              intro _ _ _ _ _ hall _
              obtain ⟨o, ho, hco⟩ := List.any_eq_true.mp h6
              simp only [beq_iff_eq] at hco
              exact absurd hco (hall o ho)
            · have h6b : (opts.any fun o => o.length == 0) = false := by
                simpa using h6
              unfold createPoll
              rw [if_neg h1, if_neg h2, if_neg h3, if_neg h4, if_neg h5]
              rw [h6b]
              simp only [Bool.false_eq_true, if_false, Except.ok.injEq,
                Prod.mk.injEq]
              constructor
              · rintro ⟨hs, hn⟩
                have hall : ∀ o ∈ opts, ¬ o.length = 0 := by simpa using h6
                exact ⟨by omega, by omega, by omega, by omega, by omega,
                  hall, hn.symm, hs.symm⟩
              · rintro ⟨_, _, _, _, _, _, hn, hs⟩
                exact ⟨hs.symm, hn.symm⟩

/-! ### The winner-scanning loop -/

lemma winnerScan_spec (l : List Nat) (i wi mv : Nat) :
    mv ≤ (winnerScan l i wi mv).2
    ∧ (∀ k, l.getD k 0 ≤ (winnerScan l i wi mv).2)
    ∧ (((winnerScan l i wi mv).1 = wi ∧ (winnerScan l i wi mv).2 = mv)
       ∨ ∃ k, k < l.length ∧ (winnerScan l i wi mv).1 = i + k
           ∧ (winnerScan l i wi mv).2 = l.getD k 0
           ∧ mv < (winnerScan l i wi mv).2
           ∧ ∀ j, j < k → l.getD j 0 < (winnerScan l i wi mv).2) := by
  induction l generalizing i wi mv with
  | nil =>
    refine ⟨le_refl _, ?_, Or.inl ⟨rfl, rfl⟩⟩
    intro k
    simp [winnerScan, getD_nil_eq]
  | cons c rest ih =>
    by_cases hc : c > mv
    · have hred : winnerScan (c :: rest) i wi mv = winnerScan rest (i + 1) i c := by
        simp [winnerScan, hc]
      obtain ⟨ha, hb, hcase⟩ := ih (i + 1) i c
      rw [hred]
      refine ⟨le_trans (le_of_lt hc) ha, ?_, ?_⟩
      · intro k
        cases k with
        | zero => simpa [getD_zero_cons] using ha
        | succ k => simpa [getD_succ_cons] using hb k
      · rcases hcase with ⟨h1, h2⟩ | ⟨k, hk, h1, h2, h3, h4⟩
        · right
          refine ⟨0, by simp, h1.trans (Nat.add_zero i).symm, ?_, ?_, ?_⟩
          · rw [getD_zero_cons]; exact h2
          · rw [h2]; exact hc
          · intro j hj; omega
        · right
          refine ⟨k + 1, by simpa using hk,
            h1.trans (by omega), by rw [getD_succ_cons]; exact h2,
            lt_trans hc h3, ?_⟩
          intro j hj
          cases j with
          | zero => rw [getD_zero_cons]; exact h3
          | succ j => rw [getD_succ_cons]; exact h4 j (by omega)
    · have hred : winnerScan (c :: rest) i wi mv = winnerScan rest (i + 1) wi mv := by
        simp [winnerScan, hc]
      obtain ⟨ha, hb, hcase⟩ := ih (i + 1) wi mv
      rw [hred]
      have hcmv : c ≤ mv := by omega
      refine ⟨ha, ?_, ?_⟩
      · intro k
        cases k with
        | zero => rw [getD_zero_cons]; exact le_trans hcmv ha
        | succ k => simpa [getD_succ_cons] using hb k
      · rcases hcase with hleft | ⟨k, hk, h1, h2, h3, h4⟩
        · exact Or.inl hleft
        · right
          refine ⟨k + 1, by simpa using hk,
            h1.trans (by omega), by rw [getD_succ_cons]; exact h2, h3, ?_⟩
          intro j hj
          cases j with
          | zero => rw [getD_zero_cons]; exact lt_of_le_of_lt hcmv h3
          | succ j => rw [getD_succ_cons]; exact h4 j (by omega)

/-! ### The active-poll scan -/

lemma activeScan_mem (s : VState) (now : Nat) (n : Nat) (i : Nat) :
    i ∈ activeScan s now n ↔
      1 ≤ i ∧ i ≤ n ∧ (s.polls i).active = true
        ∧ now < (s.polls i).endTime := by
  induction n with
  | zero =>
    simp only [activeScan, List.not_mem_nil, false_iff]
    rintro ⟨h1, h2, -⟩
    omega
  | succ n ih =>
    simp only [activeScan, List.mem_append]
    by_cases hcond : (s.polls (n + 1)).active = true ∧ now < (s.polls (n + 1)).endTime
    · rw [if_pos hcond]
      constructor
      · rintro (h | h)
        · obtain ⟨h1, h2, h3, h4⟩ := ih.mp h
          exact ⟨h1, by omega, h3, h4⟩
        · simp only [List.mem_singleton] at h
          subst h
          exact ⟨by omega, le_refl _, hcond.1, hcond.2⟩
      · rintro ⟨h1, h2, h3, h4⟩
        by_cases hi : i = n + 1
        · right; simp [hi]
        · left; exact ih.mpr ⟨h1, by omega, h3, h4⟩
    · rw [if_neg hcond]
      simp only [List.not_mem_nil, or_false]
      rw [ih]
      constructor
      · rintro ⟨h1, h2, h3, h4⟩
        exact ⟨h1, by omega, h3, h4⟩
      · rintro ⟨h1, h2, h3, h4⟩
        refine ⟨h1, ?_, h3, h4⟩
        rcases Nat.lt_or_ge i (n + 1) with hlt | hge
        · omega
        · have : i = n + 1 := by omega
          subst this
          exact absurd ⟨h3, h4⟩ hcond

lemma activeScan_sorted (s : VState) (now : Nat) (n : Nat) :
    (activeScan s now n).Sorted (· < ·) := by
  induction n with
  | zero => exact List.sorted_nil
  | succ n ih =>
    show ((activeScan s now n) ++ _).Pairwise (· < ·)
    rw [List.pairwise_append]
    refine ⟨ih, ?_, ?_⟩
    · split_ifs <;> simp
    · intro a ha b hb
      have han : a ≤ n := ((activeScan_mem s now n a).mp ha).2.1
      split_ifs at hb with hc
      · simp only [List.mem_singleton] at hb
        omega
      · simp at hb

/-! ### Storage update lemmas -/

lemma updatePoll_at (s : VState) (i : Nat) (p : Poll) :
    (updatePoll s i p).polls i = p := by
  simp [updatePoll]

lemma updatePoll_other (s : VState) (i j : Nat) (p : Poll) (h : j ≠ i) :
    (updatePoll s i p).polls j = s.polls j := by
  simp [updatePoll, h]

lemma updatePoll_count (s : VState) (i : Nat) (p : Poll) :
    (updatePoll s i p).pollCount = s.pollCount := rfl

/-! ### The ledger invariant: per poll, the option and count arrays have
equal length and the counts sum to the number of recorded voters. -/

def PollWF (p : Poll) : Prop :=
  p.options.length = p.voteCounts.length ∧ p.voteCounts.sum = p.hasVoted.card

def LedgerWF (s : VState) : Prop := ∀ i, PollWF (s.polls i)

lemma ledgerWF_init : LedgerWF initState := by
  intro i
  constructor <;> simp [initState, emptyPoll]

lemma ledgerWF_step (s : VState) (h : LedgerWF s) (op : Op) :
    LedgerWF (step s op) := by
  cases op with
  | create sender now q opts dur =>
    simp only [step]
    cases hc : createPoll s sender now q opts dur with
    | error e => exact h
    | ok r =>
      rcases r with ⟨s2, nid⟩
      obtain ⟨-, -, -, -, -, -, -, hs2⟩ :=
        (createPoll_ok_iff s sender now q opts dur s2 nid).mp hc
      subst hs2
      intro i
      by_cases hi : i = s.pollCount + 1
      · subst hi
        constructor <;> simp
      · constructor <;> simp [hi, (h i).1, (h i).2]
  | castVote sender now pid idx =>
    simp only [step]
    cases hc : vote s sender now pid idx with
    | error e => exact h
    | ok s2 =>
      obtain ⟨-, -, -, hnv, hidx, hs2⟩ :=
        (vote_ok_iff s sender now pid idx s2).mp hc
      subst hs2
      intro i
      by_cases hi : i = pid
      · subst hi
        rw [updatePoll_at]
        obtain ⟨hlen, hsum⟩ := h i
        have hidx2 : idx < (s.polls i).voteCounts.length := hlen ▸ hidx
        constructor
        · simp [applyVote, List.length_set, hlen]
        · simp only [applyVote]
          rw [sum_set_getD_add_one _ _ hidx2,
            Finset.card_insert_of_not_mem hnv, hsum]
      · rw [updatePoll_other _ _ _ _ hi]
        exact h i
  | close sender pid =>
    simp only [step]
    cases hc : endPoll s sender pid with
    | error e => exact h
    | ok s2 =>
      obtain ⟨-, -, -, hs2⟩ := (endPoll_ok_iff s sender pid s2).mp hc
      subst hs2
      intro i
      by_cases hi : i = pid
      · subst hi
        rw [updatePoll_at]
        exact ⟨(h i).1, (h i).2⟩
      · rw [updatePoll_other _ _ _ _ hi]
        exact h i

lemma ledgerWF_reachable (s : VState) (hs : Reachable s) : LedgerWF s := by
  induction hs with
  | init => exact ledgerWF_init
  | next op _ ih => exact ledgerWF_step _ ih op

/-! ### Further small helpers -/

lemma getD_replicate_zero (n j : Nat) :
    (List.replicate n (0 : Nat)).getD j 0 = 0 := by
  induction n generalizing j with
  | zero => simp [getD_nil_eq]
  | succ n ih =>
    cases j with
    | zero => rfl
    | succ j => simp [List.replicate, getD_succ_cons, ih j]

lemma step_castVote_error (s : VState) (v : Address) (now pid idx : Nat)
    (e : VErr) (h : vote s v now pid idx = Except.error e) :
    step s (.castVote v now pid idx) = s := by
  simp [step, h]

lemma step_create_error (s : VState) (sender : Address) (now : Nat)
    (q : String) (opts : List String) (dur : Nat) (e : VErr)
    (h : createPoll s sender now q opts dur = Except.error e) :
    step s (.create sender now q opts dur) = s := by
  simp [step, h]

/-! ### A concrete execution, used to evaluate the theorems below on
explicit inputs (it mirrors the scenario of the repository's test suite:
one four-option poll, three voters, a second poll that is ended early). -/

def demoOptions : List String := ["JS", "Python", "Rust", "Go"]

def demoS1 : VState :=
  step initState (.create "owner" 100 "best language?" demoOptions 60)

def demoS2 : VState := step demoS1 (.castVote "alice" 200 1 0)

def demoS3 : VState := step demoS2 (.castVote "bob" 210 1 0)

def demoS4 : VState := step demoS3 (.castVote "carol" 220 1 1)

def demoS5 : VState := step demoS4 (.create "bob" 300 "second?" ["Yes", "No"] 1)

def demoS6 : VState := step demoS5 (.close "bob" 2)

lemma demoS4_reach : Reachable demoS4 :=
  Reachable.next _ (Reachable.next _ (Reachable.next _
    (Reachable.next _ Reachable.init)))

lemma demoS6_reach : Reachable demoS6 :=
  Reachable.next _ (Reachable.next _ demoS4_reach)

/-! ### Claim theorems -/

/-- Claim C1: in any reachable state, a successful `vote(p, optionIndex)`
by identity `v` increments `voteCounts[optionIndex]` of poll `p` by exactly
one, leaves every other entry of `voteCounts` unchanged, marks `v` as
having voted on `p`, and records the chosen index so that a subsequent
`getVoterChoice(p, v)` returns `optionIndex`. -/
theorem vote_increments_chosen_count (s : VState) (hs : Reachable s)
    (v : Address) (now pid idx : Nat) (s2 : VState)
    (h : vote s v now pid idx = Except.ok s2) :
    (s2.polls pid).voteCounts.getD idx 0
        = (s.polls pid).voteCounts.getD idx 0 + 1
      ∧ (∀ j, j ≠ idx →
          (s2.polls pid).voteCounts.getD j 0
            = (s.polls pid).voteCounts.getD j 0)
      ∧ v ∈ (s2.polls pid).hasVoted
      ∧ getVoterChoice s2 pid v = Except.ok idx := by
  obtain ⟨hex, hact, hend, hnv, hidx, hs2⟩ :=
    (vote_ok_iff s v now pid idx s2).mp h
  have hlen := (ledgerWF_reachable s hs pid).1
  subst hs2
  simp only [updatePoll_at]
  refine ⟨?_, ?_, ?_, ?_⟩
  · simp only [applyVote]
    exact getD_set_self _ _ _ (hlen ▸ hidx)
  · intro j hj
    simp only [applyVote]
    exact getD_set_other _ _ _ _ hj
  · simp [applyVote]
  · have hex2 : pollExists (updatePoll s pid (applyVote (s.polls pid) v idx)) pid := hex
    simp only [getVoterChoice]
    rw [if_pos hex2, updatePoll_at]
    rw [if_pos (by simp [applyVote] :
      v ∈ (applyVote (s.polls pid) v idx).hasVoted)]
    simp [applyVote]

/-- Witness for C1: concretely, Carol's vote for option 1 on the demo poll
raises that count from 0 to 1, leaves the other counts alone, and her
recorded choice reads back as 1. -/
theorem vote_increments_chosen_count_witness :
    (demoS4.polls 1).voteCounts.getD 1 0
        = (demoS3.polls 1).voteCounts.getD 1 0 + 1
      ∧ (∀ j, j ≠ 1 →
          (demoS4.polls 1).voteCounts.getD j 0
            = (demoS3.polls 1).voteCounts.getD j 0)
      ∧ "carol" ∈ (demoS4.polls 1).hasVoted
      ∧ getVoterChoice demoS4 1 "carol" = Except.ok 1 :=
  vote_increments_chosen_count demoS3
    (Reachable.next _ (Reachable.next _ (Reachable.next _ Reachable.init)))
    "carol" 220 1 1 demoS4 rfl

/-- Claim C2: `vote`'s preconditions are checked in order — existence,
stored-active flag, expiry, duplicate vote, option bounds — each failure
is a distinct revert reason (`pollInactive` and `pollEnded` are the two
reasons the spec's taxonomy groups as NotActiveError, the latter firing
when only `endTime` has passed while the stored flag is still true), and
a rejected transaction leaves the ledger state unchanged. -/
theorem vote_rejection_cases (s : VState) (v : Address) (now pid idx : Nat) :
    (¬ pollExists s pid →
      vote s v now pid idx = Except.error .pollMissing
        ∧ step s (.castVote v now pid idx) = s)
    ∧ (pollExists s pid → (s.polls pid).active = false →
        vote s v now pid idx = Except.error .pollInactive
          ∧ step s (.castVote v now pid idx) = s)
    ∧ (pollExists s pid → (s.polls pid).active = true →
        (s.polls pid).endTime ≤ now →
        vote s v now pid idx = Except.error .pollEnded
          ∧ step s (.castVote v now pid idx) = s)
    ∧ (pollExists s pid → (s.polls pid).active = true →
        now < (s.polls pid).endTime → v ∈ (s.polls pid).hasVoted →
        vote s v now pid idx = Except.error .alreadyVoted
          ∧ step s (.castVote v now pid idx) = s)
    ∧ (pollExists s pid → (s.polls pid).active = true →
        now < (s.polls pid).endTime → v ∉ (s.polls pid).hasVoted →
        (s.polls pid).options.length ≤ idx →
        vote s v now pid idx = Except.error .invalidOption
          ∧ step s (.castVote v now pid idx) = s) := by
  refine ⟨?_, ?_, ?_, ?_, ?_⟩
  · intro h1
    have he : vote s v now pid idx = Except.error .pollMissing := by
      simp [vote, h1]
    exact ⟨he, step_castVote_error _ _ _ _ _ _ he⟩
  · intro h1 h2
    have he : vote s v now pid idx = Except.error .pollInactive := by
      simp [vote, h1, h2]
    exact ⟨he, step_castVote_error _ _ _ _ _ _ he⟩
  · intro h1 h2 h3
    have he : vote s v now pid idx = Except.error .pollEnded := by
      simp [vote, h1, h2, Nat.not_lt.mpr h3]
    exact ⟨he, step_castVote_error _ _ _ _ _ _ he⟩
  · intro h1 h2 h3 h4
    have he : vote s v now pid idx = Except.error .alreadyVoted := by
      simp [vote, h1, h2, h3, h4]
    exact ⟨he, step_castVote_error _ _ _ _ _ _ he⟩
  · intro h1 h2 h3 h4 h5
    have he : vote s v now pid idx = Except.error .invalidOption := by
      simp [vote, h1, h2, h3, h4, Nat.not_lt.mpr h5]
    exact ⟨he, step_castVote_error _ _ _ _ _ _ he⟩

/-- Witness for C2: on the demo ledger, each of the five rejection cases
fires at a concrete input — unknown poll 3, explicitly ended poll 2, poll
1 queried after its end time, Alice voting twice, and an out-of-range
option index — and each leaves the state unchanged. -/
theorem vote_rejection_cases_witness :
    (vote demoS6 "dave" 400 3 0 = Except.error .pollMissing
      ∧ step demoS6 (.castVote "dave" 400 3 0) = demoS6)
    ∧ (vote demoS6 "dave" 300 2 0 = Except.error .pollInactive
      ∧ step demoS6 (.castVote "dave" 300 2 0) = demoS6)
    ∧ (vote demoS6 "dave" 5000 1 0 = Except.error .pollEnded
      ∧ step demoS6 (.castVote "dave" 5000 1 0) = demoS6)
    ∧ (vote demoS6 "alice" 250 1 1 = Except.error .alreadyVoted
      ∧ step demoS6 (.castVote "alice" 250 1 1) = demoS6)
    ∧ (vote demoS6 "dave" 250 1 4 = Except.error .invalidOption
      ∧ step demoS6 (.castVote "dave" 250 1 4) = demoS6) :=
  ⟨(vote_rejection_cases demoS6 "dave" 400 3 0).1 (by decide),
   (vote_rejection_cases demoS6 "dave" 300 2 0).2.1 (by decide) (by decide),
   (vote_rejection_cases demoS6 "dave" 5000 1 0).2.2.1 (by decide)
     (by decide) (by decide),
   (vote_rejection_cases demoS6 "alice" 250 1 1).2.2.2.1 (by decide)
     (by decide) (by decide) (by decide),
   (vote_rejection_cases demoS6 "dave" 250 1 4).2.2.2.2 (by decide)
     (by decide) (by decide) (by decide) (by decide)⟩

/-- Claim C3: for every existing poll (active or ended), `getWinner`
returns the index of the leftmost option attaining the maximum of
`voteCounts`, that option's text and the maximum count: the returned
count is attained at the returned index, bounds every entry, and every
strictly earlier entry is strictly below it (ties keep the lowest index);
with all-zero counts the result is index 0 with count 0, a defined
outcome rather than an error. -/
theorem getWinner_leftmost_max (s : VState) (pid : Nat)
    (hex : pollExists s pid) :
    ∃ w m, getWinner s pid
        = Except.ok (w, (s.polls pid).options.getD w "", m)
      ∧ (s.polls pid).voteCounts.getD w 0 = m
      ∧ (∀ j, (s.polls pid).voteCounts.getD j 0 ≤ m)
      ∧ (∀ j, j < w → (s.polls pid).voteCounts.getD j 0 < m)
      ∧ ((s.polls pid).voteCounts ≠ [] →
          w < (s.polls pid).voteCounts.length)
      ∧ ((∀ j, (s.polls pid).voteCounts.getD j 0 = 0) → w = 0 ∧ m = 0) := by
  obtain ⟨ha, hb, hcase⟩ := winnerScan_spec ((s.polls pid).voteCounts) 0 0 0
  refine ⟨(winnerScan ((s.polls pid).voteCounts) 0 0 0).1,
    (winnerScan ((s.polls pid).voteCounts) 0 0 0).2, ?_, ?_, hb, ?_, ?_, ?_⟩
  · simp [getWinner, hex]
  · rcases hcase with ⟨hw, hm⟩ | ⟨k, hk, hw, hm, hmv, hj⟩
    · rw [hw, hm]
      have hb0 := hb 0
      rw [hm] at hb0
      omega
    · rw [hw, Nat.zero_add, ← hm]
  · rcases hcase with ⟨hw, hm⟩ | ⟨k, hk, hw, hm, hmv, hj⟩
    · intro j hj
      rw [hw] at hj
      omega
    · intro j hjw
      rw [hw, Nat.zero_add] at hjw
      exact hj j hjw
  · rcases hcase with ⟨hw, hm⟩ | ⟨k, hk, hw, hm, hmv, hj⟩
    · intro hne
      rw [hw]
      exact List.length_pos.mpr hne
    · intro _
      rw [hw, Nat.zero_add]
      exact hk
  · rcases hcase with ⟨hw, hm⟩ | ⟨k, hk, hw, hm, hmv, hj⟩
    · intro _
      exact ⟨hw, hm⟩
    · intro hz
      rw [hz k] at hm
      omega

/-- Witness for C3: on the demo poll with counts `[2, 1, 0, 0]` the winner
is option 0 with text JS and count 2. -/
theorem getWinner_leftmost_max_witness :
    ∃ w m, getWinner demoS4 1
        = Except.ok (w, (demoS4.polls 1).options.getD w "", m)
      ∧ (demoS4.polls 1).voteCounts.getD w 0 = m
      ∧ (∀ j, (demoS4.polls 1).voteCounts.getD j 0 ≤ m)
      ∧ (∀ j, j < w → (demoS4.polls 1).voteCounts.getD j 0 < m)
      ∧ ((demoS4.polls 1).voteCounts ≠ [] →
          w < (demoS4.polls 1).voteCounts.length)
      ∧ ((∀ j, (demoS4.polls 1).voteCounts.getD j 0 = 0) → w = 0 ∧ m = 0) :=
  getWinner_leftmost_max demoS4 1 (by decide)

/-- Claim C4: for every valid input (non-empty question, 2 to 10 non-empty
options, duration between 1 and 10080 minutes), `createPoll` returns
`previous pollCount + 1` as the new poll's id, and the stored poll has
`voteCounts` of the same length as `options` with every count 0,
`active = true`, `creator` equal to the caller and
`endTime = now + durationMinutes * 60`. -/
theorem createPoll_assigns_next_id (s : VState) (sender : Address)
    (now : Nat) (q : String) (opts : List String) (dur : Nat)
    (hq : 0 < q.length) (h2 : 2 ≤ opts.length) (h10 : opts.length ≤ 10)
    (hd : 0 < dur) (hd7 : dur ≤ 10080) (ho : ∀ o ∈ opts, 0 < o.length) :
    ∃ s2, createPoll s sender now q opts dur
        = Except.ok (s2, s.pollCount + 1)
      ∧ s2.pollCount = s.pollCount + 1
      ∧ (s2.polls (s.pollCount + 1)).id = s.pollCount + 1
      ∧ (s2.polls (s.pollCount + 1)).question = q
      ∧ (s2.polls (s.pollCount + 1)).options = opts
      ∧ (s2.polls (s.pollCount + 1)).voteCounts.length
          = (s2.polls (s.pollCount + 1)).options.length
      ∧ (∀ j, (s2.polls (s.pollCount + 1)).voteCounts.getD j 0 = 0)
      ∧ (s2.polls (s.pollCount + 1)).active = true
      ∧ (s2.polls (s.pollCount + 1)).creator = sender
      ∧ (s2.polls (s.pollCount + 1)).endTime = now + dur * 60 := by
  refine ⟨{ pollCount := s.pollCount + 1,
            polls := fun j =>
              if j = s.pollCount + 1 then
                { id := s.pollCount + 1, question := q, options := opts,
                  voteCounts := List.replicate opts.length 0,
                  creator := sender, endTime := now + dur * 60,
                  active := true, hasVoted := ∅,
                  voterChoice := fun _ => 0 }
              else s.polls j }, ?_, rfl, ?_, ?_, ?_, ?_, ?_, ?_, ?_, ?_⟩
  · exact (createPoll_ok_iff s sender now q opts dur _ _).mpr
      ⟨hq, h2, h10, hd, hd7, fun o hmem => by have := ho o hmem; omega,
        rfl, rfl⟩
  · simp
  · simp
  · simp
  · simp
  · intro j
    simp [getD_replicate_zero]
  · simp
  · simp
  · simp

/-- Witness for C4: creating the demo poll on a fresh ledger yields id 1
with four zeroed counts, the caller as creator and end time 3700. -/
theorem createPoll_assigns_next_id_witness :
    ∃ s2, createPoll initState "owner" 100 "best language?" demoOptions 60
        = Except.ok (s2, initState.pollCount + 1)
      ∧ s2.pollCount = initState.pollCount + 1
      ∧ (s2.polls (initState.pollCount + 1)).id = initState.pollCount + 1
      ∧ (s2.polls (initState.pollCount + 1)).question = "best language?"
      ∧ (s2.polls (initState.pollCount + 1)).options = demoOptions
      ∧ (s2.polls (initState.pollCount + 1)).voteCounts.length
          = (s2.polls (initState.pollCount + 1)).options.length
      ∧ (∀ j, (s2.polls (initState.pollCount + 1)).voteCounts.getD j 0 = 0)
      ∧ (s2.polls (initState.pollCount + 1)).active = true
      ∧ (s2.polls (initState.pollCount + 1)).creator = "owner"
      ∧ (s2.polls (initState.pollCount + 1)).endTime = 100 + 60 * 60 :=
  createPoll_assigns_next_id initState "owner" 100 "best language?"
    demoOptions 60 (by decide) (by decide) (by decide) (by decide)
    (by decide) (by decide)

/-- Claim C5: invalid `createPoll` input rejects with the first failing
precondition in the fixed order — empty question, fewer than 2 options,
more than 10 options, duration 0, duration over 10080, an empty option
element — each with a distinct revert reason, and any rejection leaves
`pollCount` and all stored polls unchanged. -/
theorem createPoll_rejection_cases (s : VState) (sender : Address)
    (now : Nat) (q : String) (opts : List String) (dur : Nat) :
    (q.length = 0 →
      createPoll s sender now q opts dur = Except.error .questionEmpty
        ∧ step s (.create sender now q opts dur) = s)
    ∧ (0 < q.length → opts.length < 2 →
        createPoll s sender now q opts dur = Except.error .needTwoOptions
          ∧ step s (.create sender now q opts dur) = s)
    ∧ (0 < q.length → 2 ≤ opts.length → 10 < opts.length →
        createPoll s sender now q opts dur = Except.error .maxTenOptions
          ∧ step s (.create sender now q opts dur) = s)
    ∧ (0 < q.length → 2 ≤ opts.length → opts.length ≤ 10 → dur = 0 →
        createPoll s sender now q opts dur = Except.error .durationZero
          ∧ step s (.create sender now q opts dur) = s)
    ∧ (0 < q.length → 2 ≤ opts.length → opts.length ≤ 10 → 0 < dur →
        10080 < dur →
        createPoll s sender now q opts dur = Except.error .durationTooLong
          ∧ step s (.create sender now q opts dur) = s)
    ∧ (0 < q.length → 2 ≤ opts.length → opts.length ≤ 10 → 0 < dur →
        dur ≤ 10080 → (∃ o ∈ opts, o.length = 0) →
        createPoll s sender now q opts dur = Except.error .optionEmpty
          ∧ step s (.create sender now q opts dur) = s) := by
  refine ⟨?_, ?_, ?_, ?_, ?_, ?_⟩
  · intro h1
    have he : createPoll s sender now q opts dur
        = Except.error .questionEmpty := by
      simp [createPoll, h1]
    exact ⟨he, step_create_error _ _ _ _ _ _ _ he⟩
  · intro h1 h2
    have he : createPoll s sender now q opts dur
        = Except.error .needTwoOptions := by
      simp [createPoll, h2]
      omega
    exact ⟨he, step_create_error _ _ _ _ _ _ _ he⟩
  · intro h1 h2 h3
    have he : createPoll s sender now q opts dur
        = Except.error .maxTenOptions := by
      have hne : ¬ q.length = 0 := by omega
      have h2n : ¬ opts.length < 2 := by omega
      simp [createPoll, hne, h2n, h3]
    exact ⟨he, step_create_error _ _ _ _ _ _ _ he⟩
  · intro h1 h2 h3 h4
    have he : createPoll s sender now q opts dur
        = Except.error .durationZero := by
      have hne : ¬ q.length = 0 := by omega
      have h2n : ¬ opts.length < 2 := by omega
      have h3n : ¬ opts.length > 10 := by omega
      simp [createPoll, hne, h2n, h3n, h4]
    exact ⟨he, step_create_error _ _ _ _ _ _ _ he⟩
  · intro h1 h2 h3 h4 h5
    have he : createPoll s sender now q opts dur
        = Except.error .durationTooLong := by
      have hne : ¬ q.length = 0 := by omega
      have h2n : ¬ opts.length < 2 := by omega
      have h3n : ¬ opts.length > 10 := by omega
      have h4n : ¬ dur = 0 := by omega
      simp [createPoll, hne, h2n, h3n, h4n, h5]
    exact ⟨he, step_create_error _ _ _ _ _ _ _ he⟩
  · intro h1 h2 h3 h4 h5 h6
    have he : createPoll s sender now q opts dur
        = Except.error .optionEmpty := by
      have hne : ¬ q.length = 0 := by omega
      have h2n : ¬ opts.length < 2 := by omega
      have h3n : ¬ opts.length > 10 := by omega
      have h4n : ¬ dur = 0 := by omega
      have h5n : ¬ dur > 10080 := by omega
      have hany : (opts.any fun o => o.length == 0) = true := by
        obtain ⟨o, ho, hco⟩ := h6
        exact List.any_eq_true.mpr ⟨o, ho, by simpa using hco⟩
      simp [createPoll, hne, h2n, h3n, h4n, h5n, hany]
    exact ⟨he, step_create_error _ _ _ _ _ _ _ he⟩

/-- Witness for C5: each of the six validation failures fires at a
concrete bad input on the initial ledger and leaves it unchanged. -/
theorem createPoll_rejection_cases_witness :
    (createPoll initState "a" 0 "" demoOptions 60
        = Except.error .questionEmpty
      ∧ step initState (.create "a" 0 "" demoOptions 60) = initState)
    ∧ (createPoll initState "a" 0 "q?" ["only"] 60
        = Except.error .needTwoOptions
      ∧ step initState (.create "a" 0 "q?" ["only"] 60) = initState)
    ∧ (createPoll initState "a" 0 "q?"
          ["1", "2", "3", "4", "5", "6", "7", "8", "9", "10", "11"] 60
        = Except.error .maxTenOptions
      ∧ step initState (.create "a" 0 "q?"
          ["1", "2", "3", "4", "5", "6", "7", "8", "9", "10", "11"] 60)
          = initState)
    ∧ (createPoll initState "a" 0 "q?" ["x", "y"] 0
        = Except.error .durationZero
      ∧ step initState (.create "a" 0 "q?" ["x", "y"] 0) = initState)
    ∧ (createPoll initState "a" 0 "q?" ["x", "y"] 10081
        = Except.error .durationTooLong
      ∧ step initState (.create "a" 0 "q?" ["x", "y"] 10081) = initState)
    ∧ (createPoll initState "a" 0 "q?" ["x", ""] 60
        = Except.error .optionEmpty
      ∧ step initState (.create "a" 0 "q?" ["x", ""] 60) = initState) :=
  ⟨(createPoll_rejection_cases initState "a" 0 "" demoOptions 60).1
      (by decide),
   (createPoll_rejection_cases initState "a" 0 "q?" ["only"] 60).2.1
      (by decide) (by decide),
   (createPoll_rejection_cases initState "a" 0 "q?"
      ["1", "2", "3", "4", "5", "6", "7", "8", "9", "10", "11"] 60).2.2.1
      (by decide) (by decide) (by decide),
   (createPoll_rejection_cases initState "a" 0 "q?" ["x", "y"] 0).2.2.2.1
      (by decide) (by decide) (by decide) (by decide),
   (createPoll_rejection_cases initState "a" 0 "q?"
      ["x", "y"] 10081).2.2.2.2.1
      (by decide) (by decide) (by decide) (by decide) (by decide),
   (createPoll_rejection_cases initState "a" 0 "q?" ["x", ""] 60).2.2.2.2.2
      (by decide) (by decide) (by decide) (by decide) (by decide)
      (by decide)⟩

/-- Claim C6: for an existing poll, `endPoll` succeeds exactly when the
caller is the poll's creator and the stored active flag is true (the end
time is never consulted), its only effect being to clear the flag; a
non-creator is rejected with the authorization reason, a creator acting
on an already-inactive poll with the already-ended reason, and a second
`endPoll` by the creator always rejects. -/
theorem endPoll_creator_only (s : VState) (sender : Address) (pid : Nat)
    (hex : pollExists s pid) :
    (sender ≠ (s.polls pid).creator →
      endPoll s sender pid = Except.error .notCreator)
    ∧ (sender = (s.polls pid).creator → (s.polls pid).active = false →
        endPoll s sender pid = Except.error .alreadyEnded)
    ∧ ((∃ s2, endPoll s sender pid = Except.ok s2) ↔
        sender = (s.polls pid).creator ∧ (s.polls pid).active = true)
    ∧ (sender = (s.polls pid).creator → (s.polls pid).active = true →
        ∃ s2, endPoll s sender pid = Except.ok s2
          ∧ (s2.polls pid).active = false
          ∧ (s2.polls pid).id = (s.polls pid).id
          ∧ (s2.polls pid).question = (s.polls pid).question
          ∧ (s2.polls pid).options = (s.polls pid).options
          ∧ (s2.polls pid).voteCounts = (s.polls pid).voteCounts
          ∧ (s2.polls pid).creator = (s.polls pid).creator
          ∧ (s2.polls pid).endTime = (s.polls pid).endTime
          ∧ (s2.polls pid).hasVoted = (s.polls pid).hasVoted
          ∧ (s2.polls pid).voterChoice = (s.polls pid).voterChoice
          ∧ (∀ j, j ≠ pid → s2.polls j = s.polls j)
          ∧ s2.pollCount = s.pollCount
          ∧ endPoll s2 sender pid = Except.error .alreadyEnded) := by
  refine ⟨?_, ?_, ?_, ?_⟩
  · intro h1
    simp [endPoll, hex, h1]
  · intro h1 h2
    simp [endPoll, hex, h1, h2]
  · constructor
    · rintro ⟨s2, h⟩
      obtain ⟨-, hcr, hact, -⟩ := (endPoll_ok_iff s sender pid s2).mp h
      exact ⟨hcr, hact⟩
    · rintro ⟨hcr, hact⟩
      exact ⟨_, (endPoll_ok_iff s sender pid _).mpr ⟨hex, hcr, hact, rfl⟩⟩
  · intro hcr hact
    refine ⟨updatePoll s pid { s.polls pid with active := false },
      (endPoll_ok_iff s sender pid _).mpr ⟨hex, hcr, hact, rfl⟩,
      ?_, ?_, ?_, ?_, ?_, ?_, ?_, ?_, ?_, ?_, ?_, ?_⟩
    · rw [updatePoll_at]
    · rw [updatePoll_at]
    · rw [updatePoll_at]
    · rw [updatePoll_at]
    · rw [updatePoll_at]
    · rw [updatePoll_at]
    · rw [updatePoll_at]
    · rw [updatePoll_at]
    · rw [updatePoll_at]
    · intro j hj
      exact updatePoll_other _ _ _ _ hj
    · rfl
    · have hex2 : pollExists
          (updatePoll s pid { s.polls pid with active := false }) pid := hex
      simp [endPoll, hex2, updatePoll_at, hcr]

/-- Witness for C6: Bob's second demo poll — Alice cannot end it, while
Bob can end it exactly once, the ending only clearing the active flag. -/
theorem endPoll_creator_only_witness :
    endPoll demoS5 "alice" 2 = Except.error .notCreator
    ∧ ∃ s2, endPoll demoS5 "bob" 2 = Except.ok s2
        ∧ (s2.polls 2).active = false
        ∧ (s2.polls 2).id = (demoS5.polls 2).id
        ∧ (s2.polls 2).question = (demoS5.polls 2).question
        ∧ (s2.polls 2).options = (demoS5.polls 2).options
        ∧ (s2.polls 2).voteCounts = (demoS5.polls 2).voteCounts
        ∧ (s2.polls 2).creator = (demoS5.polls 2).creator
        ∧ (s2.polls 2).endTime = (demoS5.polls 2).endTime
        ∧ (s2.polls 2).hasVoted = (demoS5.polls 2).hasVoted
        ∧ (s2.polls 2).voterChoice = (demoS5.polls 2).voterChoice
        ∧ (∀ j, j ≠ 2 → s2.polls j = demoS5.polls j)
        ∧ s2.pollCount = demoS5.pollCount
        ∧ endPoll s2 "bob" 2 = Except.error .alreadyEnded :=
  ⟨(endPoll_creator_only demoS5 "alice" 2 (by decide)).1 (by decide),
   (endPoll_creator_only demoS5 "bob" 2 (by decide)).2.2.2
     (by decide) (by decide)⟩

/-- Claim C7: in every reachable ledger state, every poll's `voteCounts`
entries are non-negative and their sum equals the number of distinct
identities recorded as having voted on that poll; the invariant is
established by `createPoll`'s zero initialization and preserved by every
transaction. -/
theorem reachable_sum_counts_eq_voters (s : VState) (hs : Reachable s)
    (i : Nat) :
    (∀ j, 0 ≤ (s.polls i).voteCounts.getD j 0)
      ∧ (s.polls i).voteCounts.sum = (s.polls i).hasVoted.card := by
  exact ⟨fun j => Nat.zero_le _, (ledgerWF_reachable s hs i).2⟩

/-- Witness for C7: in the demo state after three votes, poll 1's counts
sum to the cardinality of its voter set (both are 3). -/
theorem reachable_sum_counts_eq_voters_witness :
    (∀ j, 0 ≤ (demoS6.polls 1).voteCounts.getD j 0)
      ∧ (demoS6.polls 1).voteCounts.sum = (demoS6.polls 1).hasVoted.card :=
  reachable_sum_counts_eq_voters demoS6 demoS6_reach 1

/-- Claim C8: for every existing poll, `getPoll` returns a snapshot whose
`active` field is the value derived at query time (stored flag AND
current time before `endTime`), whose `totalVotes` equals the sum of
`voteCounts`, and whose remaining fields equal the stored ones. -/
theorem getPoll_snapshot (s : VState) (now : Nat) (pid : Nat)
    (hex : pollExists s pid) :
    ∃ v, getPoll s now pid = Except.ok v
      ∧ (v.active = true ↔
          ((s.polls pid).active = true ∧ now < (s.polls pid).endTime))
      ∧ v.totalVotes = (s.polls pid).voteCounts.sum
      ∧ v.id = (s.polls pid).id
      ∧ v.question = (s.polls pid).question
      ∧ v.options = (s.polls pid).options
      ∧ v.voteCounts = (s.polls pid).voteCounts
      ∧ v.creator = (s.polls pid).creator
      ∧ v.endTime = (s.polls pid).endTime := by
  refine ⟨{ id := (s.polls pid).id, question := (s.polls pid).question,
            options := (s.polls pid).options,
            voteCounts := (s.polls pid).voteCounts,
            creator := (s.polls pid).creator,
            endTime := (s.polls pid).endTime,
            active := (s.polls pid).active && decide (now < (s.polls pid).endTime),
            totalVotes := sumLoop (s.polls pid).voteCounts },
      ?_, ?_, ?_, rfl, rfl, rfl, rfl, rfl, rfl⟩
  · simp [getPoll, hex]
  · simp [Bool.and_eq_true]
  · exact sumLoop_eq_sum _

/-- Witness for C8: the demo snapshot of poll 1 at time 250 is active with
3 total votes; the same fields read back from storage. -/
theorem getPoll_snapshot_witness :
    ∃ v, getPoll demoS6 250 1 = Except.ok v
      ∧ (v.active = true ↔
          ((demoS6.polls 1).active = true ∧ 250 < (demoS6.polls 1).endTime))
      ∧ v.totalVotes = (demoS6.polls 1).voteCounts.sum
      ∧ v.id = (demoS6.polls 1).id
      ∧ v.question = (demoS6.polls 1).question
      ∧ v.options = (demoS6.polls 1).options
      ∧ v.voteCounts = (demoS6.polls 1).voteCounts
      ∧ v.creator = (demoS6.polls 1).creator
      ∧ v.endTime = (demoS6.polls 1).endTime :=
  getPoll_snapshot demoS6 250 1 (by decide)

/-- Claim C9: `getActivePolls` returns exactly the ids in `1..pollCount`
whose stored flag is true and whose end time is still ahead, in strictly
ascending order and hence without duplicates; time-expired and explicitly
ended polls are excluded by the membership characterization. -/
theorem getActivePolls_exact (s : VState) (now : Nat) :
    (∀ i, i ∈ getActivePolls s now ↔
        1 ≤ i ∧ i ≤ s.pollCount ∧ (s.polls i).active = true
          ∧ now < (s.polls i).endTime)
      ∧ (getActivePolls s now).Sorted (· < ·)
      ∧ (getActivePolls s now).Nodup := by
  refine ⟨fun i => activeScan_mem s now s.pollCount i,
    activeScan_sorted s now s.pollCount,
    (activeScan_sorted s now s.pollCount).nodup⟩

/-- Witness for C9: in the demo state at time 400 (poll 1 active until
3700, poll 2 expired at 360 and also explicitly ended), the active list
contains 1 and not 2, and is sorted without duplicates. -/
theorem getActivePolls_exact_witness :
    (1 ∈ getActivePolls demoS6 400 ↔
        1 ≤ 1 ∧ 1 ≤ demoS6.pollCount ∧ (demoS6.polls 1).active = true
          ∧ 400 < (demoS6.polls 1).endTime)
      ∧ (2 ∈ getActivePolls demoS6 400 ↔
        1 ≤ 2 ∧ 2 ≤ demoS6.pollCount ∧ (demoS6.polls 2).active = true
          ∧ 400 < (demoS6.polls 2).endTime)
      ∧ (getActivePolls demoS6 400).Sorted (· < ·)
      ∧ (getActivePolls demoS6 400).Nodup :=
  ⟨(getActivePolls_exact demoS6 400).1 1,
   (getActivePolls_exact demoS6 400).1 2,
   (getActivePolls_exact demoS6 400).2.1,
   (getActivePolls_exact demoS6 400).2.2⟩

/-- Claim C10: a successful `vote(p, i)` by identity `v` changes nothing
except `voteCounts[i]` of poll `p` and `v`'s own voting record on `p`:
`pollCount`, every other poll, the fields `id`, `question`, `options`,
`creator`, `endTime` and `active` of poll `p`, and the records of every
identity other than `v` are all unchanged. -/
theorem vote_frame (s : VState) (v : Address) (now pid idx : Nat)
    (s2 : VState) (h : vote s v now pid idx = Except.ok s2) :
    s2.pollCount = s.pollCount
      ∧ (∀ q, q ≠ pid → s2.polls q = s.polls q)
      ∧ (s2.polls pid).id = (s.polls pid).id
      ∧ (s2.polls pid).question = (s.polls pid).question
      ∧ (s2.polls pid).options = (s.polls pid).options
      ∧ (s2.polls pid).creator = (s.polls pid).creator
      ∧ (s2.polls pid).endTime = (s.polls pid).endTime
      ∧ (s2.polls pid).active = (s.polls pid).active
      ∧ (∀ w, w ≠ v →
          ((w ∈ (s2.polls pid).hasVoted) ↔ (w ∈ (s.polls pid).hasVoted))
            ∧ (s2.polls pid).voterChoice w = (s.polls pid).voterChoice w)
      ∧ (∀ j, j ≠ idx →
          (s2.polls pid).voteCounts.getD j 0
            = (s.polls pid).voteCounts.getD j 0) := by
  obtain ⟨hex, hact, hend, hnv, hidx, hs2⟩ :=
    (vote_ok_iff s v now pid idx s2).mp h
  subst hs2
  simp only [updatePoll_at]
  refine ⟨rfl, ?_, rfl, rfl, rfl, rfl, rfl, rfl, ?_, ?_⟩
  · intro q hq
    exact updatePoll_other _ _ _ _ hq
  · intro w hw
    constructor
    · simp [applyVote, Finset.mem_insert, hw]
    · simp [applyVote, hw]
  · intro j hj
    simp only [applyVote]
    exact getD_set_other _ _ _ _ hj

/-- Witness for C10: Carol's demo vote touches only her record and count
1 of poll 1. -/
theorem vote_frame_witness :
    demoS4.pollCount = demoS3.pollCount
      ∧ (∀ q, q ≠ 1 → demoS4.polls q = demoS3.polls q)
      ∧ (demoS4.polls 1).id = (demoS3.polls 1).id
      ∧ (demoS4.polls 1).question = (demoS3.polls 1).question
      ∧ (demoS4.polls 1).options = (demoS3.polls 1).options
      ∧ (demoS4.polls 1).creator = (demoS3.polls 1).creator
      ∧ (demoS4.polls 1).endTime = (demoS3.polls 1).endTime
      ∧ (demoS4.polls 1).active = (demoS3.polls 1).active
      ∧ (∀ w, w ≠ "carol" →
          ((w ∈ (demoS4.polls 1).hasVoted) ↔ (w ∈ (demoS3.polls 1).hasVoted))
            ∧ (demoS4.polls 1).voterChoice w = (demoS3.polls 1).voterChoice w)
      ∧ (∀ j, j ≠ 1 →
          (demoS4.polls 1).voteCounts.getD j 0
            = (demoS3.polls 1).voteCounts.getD j 0) :=
  vote_frame demoS3 "carol" 220 1 1 demoS4 rfl

end Voting
